import Mathlib

/-!
Verification of the 6502 disassembly core of this repository: the full
opcode table, operand formatter and decode loop of `scripts/disasm.py`,
and the coarse length table, decode loop and normalization helper of
`scripts/compare_rom.py`.  Python byte strings are modelled as `List Nat`
(every element < 256 for genuine inputs), Python ints as `Int`/`Nat`,
Python `%X`-style formatting and `str.split()` by explicit executable
functions, and a decode run that can raise (`IndexError`) returns the
lines produced so far together with an optional error marker.
-/

set_option maxRecDepth 100000

/-- Uppercase hex digit for a value in 0..15, mirroring Python `%X`. -/
def hexDigitChar (n : Nat) : Char :=
  match n with
  | 0 => '0' | 1 => '1' | 2 => '2' | 3 => '3' | 4 => '4'
  | 5 => '5' | 6 => '6' | 7 => '7' | 8 => '8' | 9 => '9'
  | 10 => 'A' | 11 => 'B' | 12 => 'C' | 13 => 'D' | 14 => 'E'
  | _ => 'F'

/-- Hex digits of `n`, most significant first; the first argument is fuel
(always at least the digit count when called with `n` itself). -/
def hexDigitsAux : Nat → Nat → List Char
  | 0, _ => []
  | fuel + 1, n =>
    if n = 0 then []
    else hexDigitsAux fuel (n / 16) ++ [hexDigitChar (n % 16)]

/-- Uppercase hex rendering of a natural number, no padding (Python `%X`). -/
def hexStrNat (n : Nat) : String :=
  if n = 0 then "0" else ⟨hexDigitsAux (n + 1) n⟩

/-- Left-pad with zeros to a given width (Python `%0wX` padding). -/
def padZeros (w : Nat) (s : String) : String :=
  ⟨List.replicate (w - s.length) '0'⟩ ++ s

/-- Python `'%0wX' % n` for a non-negative value. -/
def pyX (w : Nat) (n : Nat) : String :=
  padZeros w (hexStrNat n)

/-- Python `'%0wX' % n` for an `int`: a negative value is rendered with a
leading minus sign which counts toward the pad width. -/
def pyXInt (w : Nat) (n : Int) : String :=
  if n < 0 then "-" ++ padZeros (w - 1) (hexStrNat n.natAbs)
  else padZeros w (hexStrNat n.toNat)

/-- Right-pad with spaces to a given width (Python `%-9s`). -/
def padRight (w : Nat) (s : String) : String :=
  s ++ ⟨List.replicate (w - s.length) ' '⟩

/-- ASCII whitespace as recognised by Python `str.split()`. -/
def pyIsSpace (c : Char) : Bool :=
  c = ' ' || c = '\t' || c = '\n' || c = '\r' || c = '\x0b' || c = '\x0c'

/-- Worker for `pySplit`: the accumulator holds the current word reversed. -/
def pySplitAux : List Char → List Char → List String
  | [], acc => if acc.isEmpty then [] else [⟨acc.reverse⟩]
  | c :: cs, acc =>
    if pyIsSpace c then
      if acc.isEmpty then pySplitAux cs [] else (⟨acc.reverse⟩ : String) :: pySplitAux cs []
    else pySplitAux cs (c :: acc)

/-- Python `s.split()` with no separator: split on whitespace runs,
dropping empty fields. -/
def pySplit (s : String) : List String :=
  pySplitAux s.data []

/-- Python `s.startswith(p)`. -/
def pyStartsWith (s p : String) : Bool :=
  p.data.isPrefixOf s.data

/-- Python `data[i]` on a byte string: a negative index counts from the
end; an index out of range raises (`none`). -/
def pyGet (data : List Nat) (i : Int) : Option Nat :=
  if 0 ≤ i then
    if i < (data.length : Int) then some (data.getD i.toNat 0) else none
  else
    if -(data.length : Int) ≤ i then some (data.getD ((data.length : Int) + i).toNat 0) else none

/-- Clamp one bound of a Python slice `data[a:b]` to `0..len`. -/
def pySliceIdx (len : Nat) (a : Int) : Nat :=
  if a < 0 then ((len : Int) + a).toNat else min a.toNat len

/-- Python `data[a:b]` (step 1): clamped, never raising. -/
def pySlice (data : List Nat) (a b : Int) : List Nat :=
  let lo := pySliceIdx data.length a
  let hi := pySliceIdx data.length b
  (data.drop lo).take (hi - lo)

/-- Lookup in an association list with `Nat` keys: Python `dict[k]` /
`k in dict` for the literal dictionaries of the scripts. -/
def tblLookup {α : Type} (op : Nat) : List (Nat × α) → Option α
  | [] => none
  | (k, v) :: rest => if op = k then some v else tblLookup op rest

/-- An exception escaping a decode run (`IndexError`), or exhaustion of
the structural-recursion fuel (never reached for the fuel the wrappers
supply). -/
inductive PyErr : Type
  | indexError : PyErr
  | fuelOut : PyErr
deriving DecidableEq, Repr

namespace Disasm

/-- The full opcode table `OPCODES` of `scripts/disasm.py`:
byte value ↦ (mnemonic, addressing mode, instruction length). -/
def OPCODES : List (Nat × String × String × Nat) := [
  (0x00, "BRK", "imp", 1), (0x01, "ORA", "inx", 2), (0x05, "ORA", "zpg", 2),
  (0x06, "ASL", "zpg", 2), (0x08, "PHP", "imp", 1), (0x09, "ORA", "imm", 2),
  (0x0A, "ASL", "acc", 1), (0x0D, "ORA", "abs", 3), (0x0E, "ASL", "abs", 3),
  (0x10, "BPL", "rel", 2), (0x11, "ORA", "iny", 2), (0x15, "ORA", "zpx", 2),
  (0x16, "ASL", "zpx", 2), (0x18, "CLC", "imp", 1), (0x19, "ORA", "aby", 3),
  (0x1D, "ORA", "abx", 3), (0x1E, "ASL", "abx", 3),
  (0x20, "JSR", "abs", 3), (0x21, "AND", "inx", 2), (0x24, "BIT", "zpg", 2),
  (0x25, "AND", "zpg", 2), (0x26, "ROL", "zpg", 2), (0x28, "PLP", "imp", 1),
  (0x29, "AND", "imm", 2), (0x2A, "ROL", "acc", 1), (0x2C, "BIT", "abs", 3),
  (0x2D, "AND", "abs", 3), (0x2E, "ROL", "abs", 3),
  (0x30, "BMI", "rel", 2), (0x31, "AND", "iny", 2), (0x35, "AND", "zpx", 2),
  (0x36, "ROL", "zpx", 2), (0x38, "SEC", "imp", 1), (0x39, "AND", "aby", 3),
  (0x3D, "AND", "abx", 3), (0x3E, "ROL", "abx", 3),
  (0x40, "RTI", "imp", 1), (0x41, "EOR", "inx", 2), (0x45, "EOR", "zpg", 2),
  (0x46, "LSR", "zpg", 2), (0x48, "PHA", "imp", 1), (0x49, "EOR", "imm", 2),
  (0x4A, "LSR", "acc", 1), (0x4C, "JMP", "abs", 3), (0x4D, "EOR", "abs", 3),
  (0x4E, "LSR", "abs", 3),
  (0x50, "BVC", "rel", 2), (0x51, "EOR", "iny", 2), (0x55, "EOR", "zpx", 2),
  (0x56, "LSR", "zpx", 2), (0x58, "CLI", "imp", 1), (0x59, "EOR", "aby", 3),
  (0x5D, "EOR", "abx", 3), (0x5E, "LSR", "abx", 3),
  (0x60, "RTS", "imp", 1), (0x61, "ADC", "inx", 2), (0x65, "ADC", "zpg", 2),
  (0x66, "ROR", "zpg", 2), (0x68, "PLA", "imp", 1), (0x69, "ADC", "imm", 2),
  (0x6A, "ROR", "acc", 1), (0x6C, "JMP", "ind", 3), (0x6D, "ADC", "abs", 3),
  (0x6E, "ROR", "abs", 3),
  (0x70, "BVS", "rel", 2), (0x71, "ADC", "iny", 2), (0x75, "ADC", "zpx", 2),
  (0x76, "ROR", "zpx", 2), (0x78, "SEI", "imp", 1), (0x79, "ADC", "aby", 3),
  (0x7D, "ADC", "abx", 3), (0x7E, "ROR", "abx", 3),
  (0x81, "STA", "inx", 2), (0x84, "STY", "zpg", 2), (0x85, "STA", "zpg", 2),
  (0x86, "STX", "zpg", 2), (0x88, "DEY", "imp", 1), (0x8A, "TXA", "imp", 1),
  (0x8C, "STY", "abs", 3), (0x8D, "STA", "abs", 3), (0x8E, "STX", "abs", 3),
  (0x90, "BCC", "rel", 2), (0x91, "STA", "iny", 2), (0x94, "STY", "zpx", 2),
  (0x95, "STA", "zpx", 2), (0x96, "STX", "zpy", 2), (0x98, "TYA", "imp", 1),
  (0x99, "STA", "aby", 3), (0x9A, "TXS", "imp", 1), (0x9D, "STA", "abx", 3),
  (0xA0, "LDY", "imm", 2), (0xA1, "LDA", "inx", 2), (0xA2, "LDX", "imm", 2),
  (0xA4, "LDY", "zpg", 2), (0xA5, "LDA", "zpg", 2), (0xA6, "LDX", "zpg", 2),
  (0xA8, "TAY", "imp", 1), (0xA9, "LDA", "imm", 2), (0xAA, "TAX", "imp", 1),
  (0xAC, "LDY", "abs", 3), (0xAD, "LDA", "abs", 3), (0xAE, "LDX", "abs", 3),
  (0xB0, "BCS", "rel", 2), (0xB1, "LDA", "iny", 2), (0xB4, "LDY", "zpx", 2),
  (0xB5, "LDA", "zpx", 2), (0xB6, "LDX", "zpy", 2), (0xB8, "CLV", "imp", 1),
  (0xB9, "LDA", "aby", 3), (0xBA, "TSX", "imp", 1), (0xBC, "LDY", "abx", 3),
  (0xBD, "LDA", "abx", 3), (0xBE, "LDX", "aby", 3),
  (0xC0, "CPY", "imm", 2), (0xC1, "CMP", "inx", 2), (0xC4, "CPY", "zpg", 2),
  (0xC5, "CMP", "zpg", 2), (0xC6, "DEC", "zpg", 2), (0xC8, "INY", "imp", 1),
  (0xC9, "CMP", "imm", 2), (0xCA, "DEX", "imp", 1), (0xCC, "CPY", "abs", 3),
  (0xCD, "CMP", "abs", 3), (0xCE, "DEC", "abs", 3),
  (0xD0, "BNE", "rel", 2), (0xD1, "CMP", "iny", 2), (0xD5, "CMP", "zpx", 2),
  (0xD6, "DEC", "zpx", 2), (0xD8, "CLD", "imp", 1), (0xD9, "CMP", "aby", 3),
  (0xDD, "CMP", "abx", 3), (0xDE, "DEC", "abx", 3),
  (0xE0, "CPX", "imm", 2), (0xE1, "SBC", "inx", 2), (0xE4, "CPX", "zpg", 2),
  (0xE5, "SBC", "zpg", 2), (0xE6, "INC", "zpg", 2), (0xE8, "INX", "imp", 1),
  (0xE9, "SBC", "imm", 2), (0xEA, "NOP", "imp", 1), (0xEC, "CPX", "abs", 3),
  (0xED, "SBC", "abs", 3), (0xEE, "INC", "abs", 3),
  (0xF0, "BEQ", "rel", 2), (0xF1, "SBC", "iny", 2), (0xF5, "SBC", "zpx", 2),
  (0xF6, "INC", "zpx", 2), (0xF8, "SED", "imp", 1), (0xF9, "SBC", "aby", 3),
  (0xFD, "SBC", "abx", 3), (0xFE, "INC", "abx", 3)]

/-- `fmt_operand(mode, val, addr)` of `scripts/disasm.py`. -/
def fmt_operand (mode : String) (val : Nat) (addr : Int) : String :=
  if mode = "imp" || mode = "acc" then ""
  else if mode = "imm" then " #$" ++ pyX 2 val
  else if mode = "zpg" then " $" ++ pyX 2 val
  else if mode = "zpx" then " $" ++ pyX 2 val ++ ",X"
  else if mode = "zpy" then " $" ++ pyX 2 val ++ ",Y"
  else if mode = "abs" then " $" ++ pyX 4 val
  else if mode = "abx" then " $" ++ pyX 4 val ++ ",X"
  else if mode = "aby" then " $" ++ pyX 4 val ++ ",Y"
  else if mode = "ind" then " ($" ++ pyX 4 val ++ ")"
  else if mode = "inx" then " ($" ++ pyX 2 val ++ ",X)"
  else if mode = "iny" then " ($" ++ pyX 2 val ++ "),Y"
  else if mode = "rel" then
    let signed : Int := if val < 128 then (val : Int) else (val : Int) - 256
    let target : Int := addr + 2 + signed
    " $" ++ pyXInt 4 target
  else " ???"

/-- Modelled from the spec: the resolved absolute target of a relative
branch, `instructionAddress + 2 + signedDisplacement`, where the signed
displacement of the operand byte is the byte itself when < 128 and
byte − 256 otherwise.  Stated separately from `fmt_operand` so the code's
rendering can be compared against the spec's formula. -/
def relTargetSpec (addr : Int) (operandByte : Nat) : Int :=
  addr + 2 + (if operandByte < 128 then (operandByte : Int) else (operandByte : Int) - 256)

/-- One printed line of `disasm`: a decoded instruction (with the file
cursor `ofs` it was decoded at, its address, raw bytes, mnemonic, mode
and formatted operand) or the `.byte` pseudo-instruction for an unmapped
opcode byte. -/
inductive Line : Type
  | ins (ofs : Int) (addr : Int) (raw : List Nat) (name : String) (mode : String) (operand : String)
  | dat (ofs : Int) (addr : Int) (b : Nat)
deriving DecidableEq, Repr

/-- The address a line was printed at (`addr = base + i` in the loop). -/
def Line.addr : Line → Int
  | .ins _ a _ _ _ _ => a
  | .dat _ a _ => a

/-- The loop cursor (index into `data`) a line was decoded at. -/
def Line.ofs : Line → Int
  | .ins o _ _ _ _ _ => o
  | .dat o _ _ => o

/-- The exact text `disasm` prints for a line:
`'$%04X: %-9s %s%s'` for an instruction, `'$%04X: %02X        .byte $%02X'`
for an unmapped byte. -/
def Line.render : Line → String
  | .ins _ a raw name _ operand =>
    "$" ++ pyXInt 4 a ++ ": " ++ padRight 9 (" ".intercalate (raw.map (pyX 2))) ++
      " " ++ name ++ operand
  | .dat _ a b =>
    "$" ++ pyXInt 4 a ++ ": " ++ pyX 2 b ++ "        .byte $" ++ pyX 2 b

/-- The operand value a decode step reads: 0 for a 1-byte instruction,
`data[i+1]` for 2 bytes, `data[i+1] | (data[i+2] << 8)` for 3 bytes;
`none` models the `IndexError` of an out-of-range read. -/
def readVal (data : List Nat) (i : Int) (size : Nat) : Option Nat :=
  if size = 1 then some 0
  else if size = 2 then pyGet data (i + 1)
  else
    match pyGet data (i + 1), pyGet data (i + 2) with
    | some b1, some b2 => some (b1 ||| (b2 <<< 8))
    | _, _ => none

/-- The `while` loop of `disasm(data, base, start, end)`: `stop` is
`end - base`, `i` the cursor.  Returns the lines printed and, when an
`IndexError` interrupts the run, the error marker (the interrupted
instruction is not printed, exactly as in the source where the operand
read precedes the print).  `fuel` only bounds the recursion; the wrapper
passes enough that `.fuelOut` is unreachable. -/
def disasmLoop (data : List Nat) (base stop : Int) : Nat → Int → List Line × Option PyErr
  | 0, i =>
    if i < stop ∧ i < (data.length : Int) then ([], some .fuelOut) else ([], none)
  | fuel + 1, i =>
    if i < stop ∧ i < (data.length : Int) then
      match pyGet data i with
      | none => ([], some .indexError)
      | some op =>
        match tblLookup op OPCODES with
        | some (name, mode, size) =>
          match readVal data i size with
          | none => ([], some .indexError)
          | some val =>
            (.ins i (base + i) (pySlice data i (i + (size : Int))) name mode
                (fmt_operand mode val (base + i)) ::
                (disasmLoop data base stop fuel (i + (size : Int))).1,
              (disasmLoop data base stop fuel (i + (size : Int))).2)
        | none =>
          (.dat i (base + i) op :: (disasmLoop data base stop fuel (i + 1)).1,
            (disasmLoop data base stop fuel (i + 1)).2)
    else ([], none)

/-- `disasm(data, base, start=None, end=None)` of `scripts/disasm.py`:
defaults `start`/`end` to `base`/`base + len(data)` and runs the loop
from `i = start - base` with `stop = end - base`. -/
def disasm (data : List Nat) (base : Int) (start? stop? : Option Int) :
    List Line × Option PyErr :=
  let start := start?.getD base
  let stopA := stop?.getD (base + (data.length : Int))
  disasmLoop data base (stopA - base) (2 * data.length + 2) (start - base)

/-- Bytes consumed by one decode step at opcode byte `op`: the table
length for a defined opcode, 1 for an unmapped byte. -/
def stepSize (op : Nat) : Nat :=
  match tblLookup op OPCODES with
  | some e => e.2.2
  | none => 1

end Disasm

namespace CompareRom

/-- Apply `for op in ops: tbl[op] = v` to a length table. -/
def setAll (l : List Nat) (ops : List Nat) (v : Nat) : List Nat :=
  ops.foldl (fun a j => a.set j v) l

/-- The coarse length table `oplen` of `scripts/compare_rom.py`:
`[1]*256` followed by the source's eight bulk assignments. -/
def oplenTbl : List Nat :=
  let l := List.replicate 256 1
  let l := setAll l [0x09, 0x29, 0x49, 0x69, 0xA0, 0xA2, 0xA9, 0xC0, 0xC9, 0xE0, 0xE9] 2
  let l := setAll l [0x05, 0x06, 0x24, 0x25, 0x26, 0x45, 0x46, 0x65, 0x66, 0x84, 0x85,
    0x86, 0xA4, 0xA5, 0xA6, 0xC4, 0xC5, 0xC6, 0xE4, 0xE5, 0xE6] 2
  let l := setAll l [0x0D, 0x0E, 0x20, 0x2C, 0x2D, 0x2E, 0x4C, 0x4D, 0x4E, 0x6D, 0x6E,
    0x8C, 0x8D, 0x8E, 0xAC, 0xAD, 0xAE, 0xCC, 0xCD, 0xCE, 0xEC, 0xED, 0xEE] 3
  let l := setAll l [0x10, 0x30, 0x50, 0x70, 0x90, 0xB0, 0xD0, 0xF0] 2
  let l := setAll l [0x91, 0xB1, 0x11, 0x31, 0x51, 0x71, 0xD1, 0xF1] 2
  let l := setAll l [0x1D, 0x19, 0x3D, 0x39, 0x5D, 0x59, 0x7D, 0x79, 0x9D, 0x99, 0xBD,
    0xB9, 0xBC, 0xBE, 0xDD, 0xD9, 0xFD, 0xF9] 3
  let l := setAll l [0x15, 0x16, 0x35, 0x36, 0x55, 0x56, 0x75, 0x76, 0x94, 0x95, 0x96,
    0xB4, 0xB5, 0xB6, 0xD5, 0xD6, 0xF5, 0xF6] 2
  l.set 0x6C 3

/-- `oplen[op]`: `none` models the `IndexError` a non-byte index would
raise (never reached on genuine byte input). -/
def oplenGet (op : Nat) : Option Nat :=
  if op < 256 then some (oplenTbl.getD op 1) else none

/-- The display-name table `names` of `scripts/compare_rom.py` (mnemonics
carry mode suffixes where the bare mnemonic would be ambiguous). -/
def names : List (Nat × String) := [
  (0x00, "BRK"), (0x08, "PHP"), (0x0A, "ASL"), (0x18, "CLC"), (0x28, "PLP"),
  (0x2A, "ROL"), (0x38, "SEC"),
  (0x40, "RTI"), (0x48, "PHA"), (0x4A, "LSR"), (0x58, "CLI"), (0x60, "RTS"),
  (0x68, "PLA"), (0x6A, "ROR"),
  (0x78, "SEI"), (0x88, "DEY"), (0x8A, "TXA"), (0x98, "TYA"), (0x9A, "TXS"),
  (0xA8, "TAY"), (0xAA, "TAX"),
  (0xB8, "CLV"), (0xBA, "TSX"), (0xC8, "INY"), (0xCA, "DEX"), (0xD8, "CLD"),
  (0xE8, "INX"), (0xEA, "NOP"), (0xF8, "SED"),
  (0x20, "JSR"), (0x4C, "JMP"), (0x6C, "JMP_i"),
  (0xA9, "LDA#"), (0xA2, "LDX#"), (0xA0, "LDY#"), (0xC9, "CMP#"), (0xC0, "CPY#"),
  (0xE0, "CPX#"),
  (0x09, "ORA#"), (0x29, "AND#"), (0x49, "EOR#"), (0x69, "ADC#"), (0xE9, "SBC#"),
  (0x85, "STA_z"), (0x86, "STX_z"), (0x84, "STY_z"), (0xA5, "LDA_z"), (0xA6, "LDX_z"),
  (0xA4, "LDY_z"),
  (0x24, "BIT_z"), (0xC5, "CMP_z"), (0xC4, "CPY_z"), (0xE4, "CPX_z"), (0xC6, "DEC_z"),
  (0xE6, "INC_z"),
  (0x05, "ORA_z"), (0x25, "AND_z"), (0x45, "EOR_z"), (0x65, "ADC_z"), (0xE5, "SBC_z"),
  (0x06, "ASL_z"), (0x26, "ROL_z"), (0x46, "LSR_z"), (0x66, "ROR_z"),
  (0x8D, "STA"), (0x8E, "STX"), (0x8C, "STY"), (0xAD, "LDA"), (0xAE, "LDX"),
  (0xAC, "LDY"),
  (0x2C, "BIT"), (0xCD, "CMP"), (0xCC, "CPY"), (0xEC, "CPX"), (0xCE, "DEC"),
  (0xEE, "INC"),
  (0x0D, "ORA"), (0x2D, "AND"), (0x4D, "EOR"), (0x6D, "ADC"), (0xED, "SBC"),
  (0x0E, "ASL"), (0x2E, "ROL"), (0x4E, "LSR"), (0x6E, "ROR"),
  (0x10, "BPL"), (0x30, "BMI"), (0x50, "BVC"), (0x70, "BVS"), (0x90, "BCC"),
  (0xB0, "BCS"), (0xD0, "BNE"), (0xF0, "BEQ"),
  (0x91, "STA(y)"), (0xB1, "LDA(y)"), (0x11, "ORA(y)"), (0x31, "AND(y)"),
  (0x51, "EOR(y)"),
  (0x71, "ADC(y)"), (0xD1, "CMP(y)"), (0xF1, "SBC(y)"),
  (0x95, "STA_zx"), (0xB5, "LDA_zx"), (0x15, "ORA_zx"), (0x35, "AND_zx"),
  (0x55, "EOR_zx"),
  (0x75, "ADC_zx"), (0xD5, "CMP_zx"), (0xF5, "SBC_zx"), (0x94, "STY_zx"),
  (0xB4, "LDY_zx"),
  (0x16, "ASL_zx"), (0x36, "ROL_zx"), (0x56, "LSR_zx"), (0x76, "ROR_zx"),
  (0xD6, "DEC_zx"), (0xF6, "INC_zx"),
  (0x96, "STX_zy"), (0xB6, "LDX_zy"),
  (0x9D, "STA_x"), (0xBD, "LDA_x"), (0x1D, "ORA_x"), (0x3D, "AND_x"),
  (0x5D, "EOR_x"),
  (0x7D, "ADC_x"), (0xDD, "CMP_x"), (0xFD, "SBC_x"), (0xBC, "LDY_x"),
  (0x99, "STA_y"), (0xB9, "LDA_y"), (0x19, "ORA_y"), (0x39, "AND_y"),
  (0x59, "EOR_y"),
  (0x79, "ADC_y"), (0xD9, "CMP_y"), (0xF9, "SBC_y"), (0xBE, "LDX_y")]

/-- One entry of the list `disasm` of `compare_rom.py` returns: the file
cursor it was decoded at, the NES address `0x8000 + (i - 16)` and the
rendered instruction text. -/
structure CLine : Type where
  ofs : Nat
  nes : Int
  text : String
deriving DecidableEq, Repr

/-- The `if length == 3 / elif length == 2 / else` rendering of one line
(`'%s $%04X'`, `'%s $%02X'`, or the bare display name); `none` models the
`IndexError` of an operand read past the buffer (unreachable, since the
loop breaks first). -/
def mkText (n : String) (rom : List Nat) (i : Nat) (length : Nat) : Option String :=
  if length = 3 then
    match pyGet rom ((i : Int) + 1), pyGet rom ((i : Int) + 2) with
    | some b1, some b2 => some (n ++ " $" ++ pyX 4 (b1 ||| (b2 <<< 8)))
    | _, _ => none
  else if length = 2 then
    match pyGet rom ((i : Int) + 1) with
    | some b1 => some (n ++ " $" ++ pyX 2 b1)
    | none => none
  else some n

/-- The `while i < end` loop of `disasm(rom, start_file, count)` in
`compare_rom.py`: stops at `endIdx`, breaks without emitting when
`i + length > endIdx`, otherwise appends a line and advances by the
table length.  `fuel` only bounds the recursion; the wrapper passes
enough that `.fuelOut` is unreachable. -/
def disasmLoop (rom : List Nat) (endIdx : Nat) : Nat → Nat → List CLine × Option PyErr
  | 0, i =>
    if i < endIdx then ([], some .fuelOut) else ([], none)
  | fuel + 1, i =>
    if i < endIdx then
      match pyGet rom (i : Int) with
      | none => ([], some .indexError)
      | some op =>
        match oplenGet op with
        | none => ([], some .indexError)
        | some length =>
          if i + length > endIdx then ([], none)
          else
            match mkText ((tblLookup op names).getD ("?" ++ pyX 2 op)) rom i length with
            | none => ([], some .indexError)
            | some txt =>
              (⟨i, 0x8000 + ((i : Int) - 16), txt⟩ :: (disasmLoop rom endIdx fuel (i + length)).1,
                (disasmLoop rom endIdx fuel (i + length)).2)
    else ([], none)

/-- `disasm(rom, start_file, count)` of `scripts/compare_rom.py`:
decodes from `start_file` up to `min(start_file + count, len(rom))`. -/
def disasm (rom : List Nat) (start_file count : Nat) : List CLine × Option PyErr :=
  disasmLoop rom (min (start_file + count) rom.length) (rom.length + 1) start_file

/-- The mnemonic tuple of `normalize`: display names whose 4-hex-digit
absolute operand is wildcarded. -/
def mnemonics : List String :=
  ["JSR", "JMP", "STA", "STX", "STY", "LDA", "LDX", "LDY",
   "INC", "DEC", "CMP", "BIT", "ORA", "AND", "EOR", "ADC", "SBC",
   "ASL", "ROL", "LSR", "ROR", "JMP_i", "STA_x", "LDA_x", "STA_y", "LDA_y"]

/-- `normalize(inst_text)` of `scripts/compare_rom.py`: when the text
splits into exactly a mnemonic from the fixed tuple plus a 5-character
`$`-operand, replace the operand with `$????`; otherwise return the text
unchanged. -/
def normalize (inst_text : String) : String :=
  match pySplit inst_text with
  | [p0, p1] =>
    if pyStartsWith p1 "$" ∧ p1.length = 5 ∧ p0 ∈ mnemonics then p0 ++ " $????"
    else inst_text
  | _ => inst_text

end CompareRom

/-- The opcode bytes on which the two hand-maintained tables disagree:
the eight pre-indexed-indirect `(zp,X)` opcodes and the six absolute-X
read-modify-write opcodes, all present in `OPCODES` with length 2 or 3
but left at the default length 1 in `oplen`. -/
def driftOps : List Nat :=
  [0x01, 0x21, 0x41, 0x61, 0x81, 0xA1, 0xC1, 0xE1,
   0x1E, 0x3E, 0x5E, 0x7E, 0xDE, 0xFE]

/-- Whether `oplen` of `compare_rom.py` assigns the same instruction
length as the full table of `disasm.py` at byte `op` (vacuously true
when `op` has no `OPCODES` entry). -/
def tablesAgreeAt (op : Nat) : Bool :=
  match tblLookup op Disasm.OPCODES with
  | some e => CompareRom.oplenGet op == some e.2.2
  | none => true

theorem tblLookup_mem {α : Type} (op : Nat) (v : α) :
    ∀ l : List (Nat × α), tblLookup op l = some v → (op, v) ∈ l := by
  intro l
  induction l with
  | nil => intro h; simp [tblLookup] at h
  | cons p rest ih =>
    intro h
    obtain ⟨k, w⟩ := p
    rw [tblLookup] at h
    split at h
    · next heq =>
      obtain rfl : w = v := Option.some.inj h
      subst heq
      exact List.mem_cons_self _ _
    · exact List.mem_cons_of_mem _ (ih h)

theorem OPCODES_size_bounds : ∀ p ∈ Disasm.OPCODES, 1 ≤ p.2.2.2 ∧ p.2.2.2 ≤ 3 := by decide

theorem lookup_size_bounds {op : Nat} {e : String × String × Nat}
    (h : tblLookup op Disasm.OPCODES = some e) : 1 ≤ e.2.2 ∧ e.2.2 ≤ 3 :=
  OPCODES_size_bounds (op, e) (tblLookup_mem op e _ h)

theorem getD_mem_of_lt {α : Type} :
    ∀ (l : List α) (n : Nat) (d : α), n < l.length → l.getD n d ∈ l := by
  intro l
  induction l with
  | nil => intro n d h; simp at h
  | cons a t ih =>
    intro n d h
    cases n with
    | zero => simp [List.getD]
    | succ m =>
      rw [List.getD_cons_succ]
      exact List.mem_cons_of_mem _ (ih m d (by simpa using h))

theorem getD_mem_or {α : Type} (l : List α) (n : Nat) (d : α) :
    l.getD n d ∈ l ∨ l.getD n d = d := by
  by_cases h : n < l.length
  · exact Or.inl (getD_mem_of_lt l n d h)
  · right
    induction l generalizing n with
    | nil => simp [List.getD]
    | cons a t ih =>
      cases n with
      | zero => exact absurd (by simp) h
      | succ m =>
        rw [List.getD_cons_succ]
        exact ih m (by simp at h ⊢; omega)

theorem oplenTbl_pos : ∀ x ∈ CompareRom.oplenTbl, 1 ≤ x := by decide

theorem oplenGet_pos {op L : Nat} (h : CompareRom.oplenGet op = some L) : 1 ≤ L := by
  unfold CompareRom.oplenGet at h
  split at h
  · obtain rfl : CompareRom.oplenTbl.getD op 1 = L := Option.some.inj h
    rcases getD_mem_or CompareRom.oplenTbl op 1 with hm | hd
    · exact oplenTbl_pos _ hm
    · omega
  · exact absurd h (by simp)

theorem pyGetNat (data : List Nat) (j : Nat) (h : j < data.length) :
    pyGet data (j : Int) = some (data.getD j 0) := by
  have h0 : (0 : Int) ≤ (j : Int) := Int.natCast_nonneg j
  have h1 : (j : Int) < (data.length : Int) := by exact_mod_cast h
  simp [pyGet, h0, h1]

theorem pyGet_mem {data : List Nat} {i : Int} {v : Nat}
    (h : pyGet data i = some v) : v ∈ data := by
  unfold pyGet at h
  split at h
  · split at h
    · obtain rfl := Option.some.inj h
      exact getD_mem_of_lt _ _ _ (by omega)
    · exact absurd h (by simp)
  · split at h
    · obtain rfl := Option.some.inj h
      exact getD_mem_of_lt _ _ _ (by omega)
    · exact absurd h (by simp)

theorem disasmLoop_length_le (data : List Nat) (base stop : Int) :
    ∀ (fuel : Nat) (i : Int),
      (Disasm.disasmLoop data base stop fuel i).1.length
        ≤ (min stop (data.length : Int) - i).toNat := by
  intro fuel
  induction fuel with
  | zero =>
    intro i
    rw [Disasm.disasmLoop]
    split <;> simp
  | succ f ih =>
    intro i
    rw [Disasm.disasmLoop]
    split
    · next hguard =>
      have hi : i < min stop (data.length : Int) := lt_min hguard.1 hguard.2
      split
      · simp
      · next op hop =>
        split
        · next nm md sz hlk =>
          have hsz : 1 ≤ sz := (lookup_size_bounds hlk).1
          split
          · simp
          · next v hrv =>
            have h1 := ih (i + (sz : Int))
            simp only [List.length_cons]
            omega
        · next hlk =>
          have h1 := ih (i + 1)
          simp only [List.length_cons]
          omega
    · simp

theorem disasmLoop_addr_spec (data : List Nat) (base stop : Int) :
    ∀ (fuel : Nat) (i : Int),
      (∀ l ∈ (Disasm.disasmLoop data base stop fuel i).1,
          l.addr = base + l.ofs ∧ base + i ≤ l.addr)
      ∧ (Disasm.disasmLoop data base stop fuel i).1.Pairwise
          (fun a b => a.addr < b.addr) := by
  intro fuel
  induction fuel with
  | zero =>
    intro i
    rw [Disasm.disasmLoop]
    split <;> simp
  | succ f ih =>
    intro i
    rw [Disasm.disasmLoop]
    split
    · next hguard =>
      split
      · simp
      · next op hop =>
        split
        · next nm md sz hlk =>
          have hsz : 1 ≤ sz := (lookup_size_bounds hlk).1
          split
          · simp
          · next v hrv =>
            obtain ⟨ih1, ih2⟩ := ih (i + (sz : Int))
            constructor
            · intro l hl
              rcases List.mem_cons.mp hl with rfl | hl
              · simp [Disasm.Line.addr, Disasm.Line.ofs]
              · obtain ⟨ha, hb⟩ := ih1 l hl
                exact ⟨ha, le_trans (by omega : base + i ≤ base + (i + (sz : Int))) hb⟩
            · rw [List.pairwise_cons]
              refine ⟨fun l hl => ?_, ih2⟩
              obtain ⟨_, hb⟩ := ih1 l hl
              show base + i < Disasm.Line.addr l
              exact lt_of_lt_of_le (by omega) hb
        · next hlk =>
          obtain ⟨ih1, ih2⟩ := ih (i + 1)
          constructor
          · intro l hl
            rcases List.mem_cons.mp hl with rfl | hl
            · simp [Disasm.Line.addr, Disasm.Line.ofs]
            · obtain ⟨ha, hb⟩ := ih1 l hl
              exact ⟨ha, le_trans (by omega : base + i ≤ base + (i + 1)) hb⟩
          · rw [List.pairwise_cons]
            refine ⟨fun l hl => ?_, ih2⟩
            obtain ⟨_, hb⟩ := ih1 l hl
            show base + i < Disasm.Line.addr l
            exact lt_of_lt_of_le (by omega) hb
    · simp

theorem mkText_isSome (n : String) (rom : List Nat) (i length : Nat)
    (h : i + length ≤ rom.length) :
    ∃ t, CompareRom.mkText n rom i length = some t := by
  unfold CompareRom.mkText
  split
  · next h3 =>
    subst h3
    have e1 : ((i : Int) + 1) = ((i + 1 : Nat) : Int) := by push_cast; ring
    have e2 : ((i : Int) + 2) = ((i + 2 : Nat) : Int) := by push_cast; ring
    rw [e1, e2, pyGetNat rom (i + 1) (by omega), pyGetNat rom (i + 2) (by omega)]
    exact ⟨_, rfl⟩
  · split
    · next h3 h2 =>
      subst h2
      have e1 : ((i : Int) + 1) = ((i + 1 : Nat) : Int) := by push_cast; ring
      rw [e1, pyGetNat rom (i + 1) (by omega)]
      exact ⟨_, rfl⟩
    · exact ⟨_, rfl⟩

theorem compareLoop_no_err (rom : List Nat) (hbytes : ∀ b ∈ rom, b < 256)
    (endIdx : Nat) (hend : endIdx ≤ rom.length) :
    ∀ (fuel : Nat) (i : Nat), endIdx ≤ fuel + i →
      (CompareRom.disasmLoop rom endIdx fuel i).2 = none := by
  intro fuel
  induction fuel with
  | zero =>
    intro i hfi
    rw [CompareRom.disasmLoop]
    rw [if_neg (by omega)]
  | succ f ih =>
    intro i hfi
    rw [CompareRom.disasmLoop]
    split
    · next hguard =>
      split
      · next hop =>
        rw [pyGetNat rom i (by omega)] at hop
        exact absurd hop (by simp)
      · next op hop =>
        split
        · next hol =>
          have hb : op < 256 := hbytes _ (pyGet_mem hop)
          unfold CompareRom.oplenGet at hol
          rw [if_pos hb] at hol
          exact absurd hol (by simp)
        · next length hol =>
          have hpos : 1 ≤ length := oplenGet_pos hol
          split
          · rfl
          · next hbreak =>
            split
            · next hmk =>
              obtain ⟨t, ht⟩ := mkText_isSome
                ((tblLookup op CompareRom.names).getD ("?" ++ pyX 2 op)) rom i length (by omega)
              rw [ht] at hmk
              exact absurd hmk (by simp)
            · next txt hmk =>
              exact ih (i + length) (by omega)
    · rfl

theorem compareLoop_addr_spec (rom : List Nat) (endIdx : Nat) :
    ∀ (fuel : Nat) (i : Nat),
      (∀ e ∈ (CompareRom.disasmLoop rom endIdx fuel i).1,
          e.nes = 0x8000 + ((e.ofs : Int) - 16) ∧ i ≤ e.ofs)
      ∧ (CompareRom.disasmLoop rom endIdx fuel i).1.Pairwise
          (fun a b => a.nes < b.nes) := by
  intro fuel
  induction fuel with
  | zero =>
    intro i
    rw [CompareRom.disasmLoop]
    split <;> simp
  | succ f ih =>
    intro i
    rw [CompareRom.disasmLoop]
    split
    · next hguard =>
      split
      · simp
      · next op hop =>
        split
        · simp
        · next length hol =>
          have hpos : 1 ≤ length := oplenGet_pos hol
          split
          · simp
          · next hbreak =>
            split
            · simp
            · next txt hmk =>
              obtain ⟨ih1, ih2⟩ := ih (i + length)
              constructor
              · intro e he
                rcases List.mem_cons.mp he with rfl | he
                · exact ⟨rfl, le_refl _⟩
                · obtain ⟨ha, hb⟩ := ih1 e he
                  exact ⟨ha, by omega⟩
              · rw [List.pairwise_cons]
                refine ⟨fun e he => ?_, ih2⟩
                obtain ⟨ha, hb⟩ := ih1 e he
                have hlt : (i : Int) < (e.ofs : Int) := by exact_mod_cast (by omega : i < e.ofs)
                show 0x8000 + ((i : Int) - 16) < e.nes
                rw [ha]
                omega
    · simp

/-- C1: for every relative-mode operand byte and instruction address, the
operand formatter of disasm.py renders exactly the spec's resolved
absolute branch target `instructionAddress + 2 + signedDisplacement`
(displacement = byte if byte < 128 else byte − 256); in particular opcode
0x10 at address 0x8010 with operand byte 0xFE renders target `$8010`. -/
theorem c1_relative_branch_target :
    (∀ (val : Nat) (addr : Int),
        Disasm.fmt_operand "rel" val addr = " $" ++ pyXInt 4 (Disasm.relTargetSpec addr val))
    ∧ Disasm.fmt_operand "rel" 0xFE 0x8010 = " $8010" := by
  constructor
  · intro val addr
    rfl
  · decide

/-- C2 counterexample: decoding the defined opcode 0xA9 (LDA immediate,
2 bytes) from the 1-byte buffer `[0xA9]` makes `disasm` of disasm.py
read `data[i+1]` past the end: an `IndexError` escapes the run instead
of the claimed clean stop. -/
theorem c2_truncation_ix_error :
    Disasm.disasm [0xA9] 0x8000 none none = ([], some PyErr.indexError) := by decide

/-- C2 (amended): the clean-stop behaviour holds for the decode loop of
compare_rom.py — given byte input its run never signals an error, and on
a truncated tail it stops before the partial instruction, the caller
receiving exactly the instructions produced so far (concrete run shown);
disasm.py's decoder instead raises `IndexError` on such input. -/
theorem c2_truncation_stops_cleanly :
    (∀ (rom : List Nat) (s c : Nat), (∀ b ∈ rom, b < 256) →
        (CompareRom.disasm rom s c).2 = none)
    ∧ CompareRom.disasm (List.replicate 16 0 ++ [0xA9, 0x05, 0xA9]) 16 3 =
        ([{ ofs := 16, nes := 0x8000, text := "LDA# $05" }], none) := by
  constructor
  · intro rom s c hb
    exact compareLoop_no_err rom hb (min (s + c) rom.length) (min_le_right _ _)
      (rom.length + 1) s (by omega)
  · decide

/-- C2 witness: the clean-stop theorem applied to a concrete byte input. -/
theorem c2_truncation_stops_cleanly_witness :
    (CompareRom.disasm [0xA9, 0x05] 0 2).2 = none :=
  c2_truncation_stops_cleanly.1 [0xA9, 0x05] 0 2 (by decide)

/-- C3 counterexample: opcode 0x01 (ORA (zp,X)) has length 2 in the full
table `OPCODES` of disasm.py but length 1 in the coarse table `oplen` of
compare_rom.py — the two hand-maintained tables have drifted apart. -/
theorem c3_drift_at_0x01 :
    tblLookup 0x01 Disasm.OPCODES = some ("ORA", "inx", 2)
    ∧ CompareRom.oplenGet 0x01 = some 1 := by
  constructor
  · decide
  · decide

/-- C3 (amended): the two tables assign the same length to every defined
opcode except the fourteen bytes of `driftOps` (the eight (zp,X) opcodes
and the six absolute-X read-modify-write opcodes), where `oplen` keeps
the default length 1 while `OPCODES` records the true length 2 or 3. -/
theorem c3_tables_agree_off_drift :
    (∀ op : Nat, op < 256 → (tablesAgreeAt op = true ↔ op ∉ driftOps))
    ∧ (∀ op ∈ driftOps, CompareRom.oplenGet op = some 1
        ∧ (tblLookup op Disasm.OPCODES).isSome = true
        ∧ ((tblLookup op Disasm.OPCODES).map (fun e => e.2.2)) ≠ some 1) := by
  constructor
  · decide
  · decide

/-- C3 witness: agreement at the defined opcode 0x4C (JMP absolute) and
disagreement at the drifted opcode 0x01. -/
theorem c3_tables_agree_off_drift_witness :
    (tablesAgreeAt 0x4C = true ↔ 0x4C ∉ driftOps)
    ∧ (CompareRom.oplenGet 0x01 = some 1
        ∧ (tblLookup 0x01 Disasm.OPCODES).isSome = true
        ∧ ((tblLookup 0x01 Disasm.OPCODES).map (fun e => e.2.2)) ≠ some 1) :=
  ⟨c3_tables_agree_off_drift.1 0x4C (by decide), c3_tables_agree_off_drift.2 0x01 (by decide)⟩

/-- C4: for every byte value with no `OPCODES` entry, in every decode
state whose cursor is inside the range, the decode step emits exactly
one raw-data pseudo-instruction of length 1 at the current address
`base + i`, advances the cursor by exactly one byte, and decoding
continues (the rest of the run is prepended to, not replaced by, the
pseudo-instruction, and no error arises from the step itself); every
such pseudo-line renders in the `.byte` form distinct from real
mnemonics; in particular `[0xFF]` at base 0x8000 yields one
pseudo-instruction at address 0x8000 and the cursor advances to 0x8001
(the following NOP decodes at address 0x8001). -/
theorem c4_unknown_byte_pseudo :
    (∀ (data : List Nat) (base stop : Int) (fuel : Nat) (i : Int) (op : Nat),
        i < stop → i < (data.length : Int) → pyGet data i = some op →
        tblLookup op Disasm.OPCODES = none →
        Disasm.disasmLoop data base stop (fuel + 1) i =
          (Disasm.Line.dat i (base + i) op ::
              (Disasm.disasmLoop data base stop fuel (i + 1)).1,
            (Disasm.disasmLoop data base stop fuel (i + 1)).2))
    ∧ (∀ (o a : Int) (b : Nat),
        Disasm.Line.render (Disasm.Line.dat o a b) =
          "$" ++ pyXInt 4 a ++ ": " ++ pyX 2 b ++ "        .byte $" ++ pyX 2 b)
    ∧ Disasm.disasm [0xFF] 0x8000 none none = ([Disasm.Line.dat 0 0x8000 0xFF], none)
    ∧ Disasm.disasm [0xFF, 0xEA] 0x8000 none none =
        ([Disasm.Line.dat 0 0x8000 0xFF,
          Disasm.Line.ins 1 0x8001 [0xEA] "NOP" "imp" ""], none)
    ∧ Disasm.Line.render (Disasm.Line.dat 0 0x8000 0xFF) = "$8000: FF        .byte $FF" := by
  refine ⟨?_, fun o a b => rfl, by decide, by decide, by decide⟩
  intro data base stop fuel i op h1 h2 hop hlk
  rw [Disasm.disasmLoop]
  rw [if_pos ⟨h1, h2⟩]
  simp only [hop, hlk]

/-- C4 witness: the unmapped-byte step equation applied at the concrete
byte 0xFF, start of the `[0xFF]` buffer. -/
theorem c4_unknown_byte_pseudo_witness :
    Disasm.disasmLoop [0xFF] 0x8000 1 (2 + 1) 0 =
      (Disasm.Line.dat 0 0x8000 0xFF :: (Disasm.disasmLoop [0xFF] 0x8000 1 2 1).1,
        (Disasm.disasmLoop [0xFF] 0x8000 1 2 1).2) :=
  c4_unknown_byte_pseudo.1 [0xFF] 0x8000 1 2 0 0xFF (by decide) (by decide)
    (by decide) (by decide)

/-- C5: `normalize` of compare_rom.py is idempotent on every string. -/
theorem c5_normalize_idempotent (x : String) :
    CompareRom.normalize (CompareRom.normalize x) = CompareRom.normalize x := by
  have hfix : ∀ p ∈ CompareRom.mnemonics,
      CompareRom.normalize (p ++ " $????") = p ++ " $????" := by decide
  have h : CompareRom.normalize x = x
      ∨ ∃ p ∈ CompareRom.mnemonics, CompareRom.normalize x = p ++ " $????" := by
    unfold CompareRom.normalize
    split
    · split
      · next hc => exact Or.inr ⟨_, hc.2.2, rfl⟩
      · exact Or.inl rfl
    · exact Or.inl rfl
  rcases h with h | ⟨p, hp, h⟩
  · rw [h]
    exact h
  · rw [h]
    exact hfix p hp

/-- C6: `normalize` wildcards the 4-hex-digit operand of each mnemonic in
its fixed tuple (`LDA $0300` and `LDA $9000` both become `LDA $????`, and
so for every listed mnemonic), while leaving other text unchanged —
immediate (`LDA #$05`), zero-page/relative (`BPL $80`), operand-less
(`NOP`) and unlisted-mnemonic (`BRK $0300`) strings come back intact. -/
theorem c6_normalize_selectivity :
    CompareRom.normalize "LDA $0300" = "LDA $????"
    ∧ CompareRom.normalize "LDA $9000" = "LDA $????"
    ∧ CompareRom.normalize "LDA #$05" = "LDA #$05"
    ∧ (∀ p ∈ CompareRom.mnemonics, CompareRom.normalize (p ++ " $0300") = p ++ " $????")
    ∧ CompareRom.normalize "BPL $80" = "BPL $80"
    ∧ CompareRom.normalize "NOP" = "NOP"
    ∧ CompareRom.normalize "BRK $0300" = "BRK $0300" := by
  refine ⟨by decide, by decide, by decide, by decide, by decide, by decide, by decide⟩

/-- C6 witness: the wildcard rule applied at the concrete mnemonic JSR. -/
theorem c6_normalize_selectivity_witness :
    CompareRom.normalize ("JSR" ++ " $0300") = "JSR" ++ " $????" :=
  c6_normalize_selectivity.2.2.2.1 "JSR" (by decide)

/-- C7: the 3-byte buffer `[0x4C, 0x00, 0x90]` at base 0x8000 decodes to
exactly one instruction at address 0x8000: mnemonic JMP in absolute mode
with operand `$9000` assembled little-endian from the two operand
bytes. -/
theorem c7_jmp_absolute_decode :
    Disasm.disasm [0x4C, 0x00, 0x90] 0x8000 none none =
      ([Disasm.Line.ins 0 0x8000 [0x4C, 0x00, 0x90] "JMP" "abs" " $9000"], none) := by
  decide

/-- C8: every decode step of disasm.py consumes between 1 and 3 bytes —
exactly 1 on an unmapped byte — and every decode run is finite: the
number of emitted lines is bounded by the remaining range, and a default
full-buffer run emits at most `data.length` lines. -/
theorem c8_forward_progress :
    (∀ op : Nat, op < 256 →
        1 ≤ Disasm.stepSize op ∧ Disasm.stepSize op ≤ 3
        ∧ (tblLookup op Disasm.OPCODES = none → Disasm.stepSize op = 1))
    ∧ (∀ (data : List Nat) (base stop : Int) (fuel : Nat) (i : Int),
        (Disasm.disasmLoop data base stop fuel i).1.length
          ≤ (min stop (data.length : Int) - i).toNat)
    ∧ (∀ (data : List Nat) (base : Int),
        (Disasm.disasm data base none none).1.length ≤ data.length) := by
  refine ⟨by decide, disasmLoop_length_le, ?_⟩
  intro data base
  have h := disasmLoop_length_le data base ((base + (data.length : Int)) - base)
    (2 * data.length + 2) (base - base)
  refine le_trans h ?_
  omega

/-- C8 witness: step sizes at the defined opcode 0x4C and the unmapped
byte 0xFF. -/
theorem c8_forward_progress_witness :
    1 ≤ Disasm.stepSize 0x4C ∧ Disasm.stepSize 0xFF = 1 :=
  ⟨(c8_forward_progress.1 0x4C (by decide)).1,
   (c8_forward_progress.1 0xFF (by decide)).2.2 (by decide)⟩

/-- C9: across any decode run the emitted addresses are strictly
increasing, and each equals the cursor mapped through the translation:
`base + i` for disasm.py (whose input is the already header-stripped
PRG), and `0x8000 + (fileOffset − 16)` for compare_rom.py. -/
theorem c9_addresses_strictly_increasing :
    (∀ (data : List Nat) (base : Int) (start? stop? : Option Int),
        ((Disasm.disasm data base start? stop?).1.Pairwise fun a b => a.addr < b.addr)
        ∧ ∀ l ∈ (Disasm.disasm data base start? stop?).1, l.addr = base + l.ofs)
    ∧ (∀ (rom : List Nat) (s c : Nat),
        ((CompareRom.disasm rom s c).1.Pairwise fun a b => a.nes < b.nes)
        ∧ ∀ e ∈ (CompareRom.disasm rom s c).1, e.nes = 0x8000 + ((e.ofs : Int) - 16)) := by
  constructor
  · intro data base s? e?
    have h := disasmLoop_addr_spec data base ((e?.getD (base + (data.length : Int))) - base)
      (2 * data.length + 2) ((s?.getD base) - base)
    exact ⟨h.2, fun l hl => (h.1 l hl).1⟩
  · intro rom s c
    have h := compareLoop_addr_spec rom (min (s + c) rom.length) (rom.length + 1) s
    exact ⟨h.2, fun e he => (h.1 e he).1⟩

/-- C9 witness: the address/cursor relation at a concrete emitted line. -/
theorem c9_addresses_strictly_increasing_witness :
    Disasm.Line.addr (Disasm.Line.ins 0 0x8000 [0xEA] "NOP" "imp" "") =
      0x8000 + Disasm.Line.ofs (Disasm.Line.ins 0 0x8000 [0xEA] "NOP" "imp" "") :=
  (c9_addresses_strictly_increasing.1 [0xEA] 0x8000 none none).2 _ (by decide)

/-- C10 counterexample: an out-of-range start (`start` past the buffer
end) and a reversed range (`end < start`) both make `disasm` of disasm.py
return `([], none)` — the very same value as a normal empty decode — so
no distinguished invalid-range error outcome is signalled. -/
theorem c10_invalid_range_silent :
    Disasm.disasm [0xEA] 0x8000 (some 0x8001) (some 0x8005) = ([], none)
    ∧ Disasm.disasm [0xEA] 0x8000 (some 0x8000) (some 0x7FFF) = ([], none)
    ∧ Disasm.disasm [] 0x8000 none none = ([], none) := by
  refine ⟨by decide, by decide, by decide⟩

/-- C10 (amended): on an invalid range — start at or past the buffer's
end, or end before start — `disasm` silently returns the empty sequence
with no error signal, indistinguishable from an empty decode. -/
theorem c10_invalid_range_empty (data : List Nat) (base s e : Int)
    (h : (data.length : Int) ≤ s - base ∨ e < s) :
    Disasm.disasm data base (some s) (some e) = ([], none) := by
  unfold Disasm.disasm
  simp only [Option.getD_some]
  rw [Disasm.disasmLoop]
  rw [if_neg (by omega)]

/-- C10 witness: the amended theorem at a concrete out-of-range start. -/
theorem c10_invalid_range_empty_witness :
    Disasm.disasm [0xEA] 0x8000 (some 0x9000) (some 0x9005) = ([], none) :=
  c10_invalid_range_empty [0xEA] 0x8000 0x9000 0x9005 (Or.inl (by decide))
